import Mathlib

/-!
Shallow embedding of the retrieval + index-caching subsystem of the
Rag_chatbot_empiric repository, together with theorems settling the frozen
claims about it.

Embedded source files: `config.py`, `text_processor.py`, `document_loader.py`
(hash abstracted), `vector_store.py`, `rag_engine.py`, `chatbot.py`.

Modelling conventions:
- Python `int` is `Int` (arbitrary precision in Python, so no wrap-around).
- A Python function that can raise, or a loop that can diverge, returns
  `Option`: `none` models an uncaught exception / divergence.
- The external collaborators (sentence-transformers `encode`, Gemini
  `generate_content`, the `make_response_natural` post-processor) are taken
  as function parameters; the FAISS flat-L2 index is modelled by the list of
  its stored vectors, with `search` following the documented FAISS semantics
  (squared L2 distances, results padded with id `-1` and distance `FLT_MAX`
  when `k` exceeds `ntotal`).
- Vectors are `List Int` so that squared distances are exact; FAISS
  `FLT_MAX` padding is modelled by a large rational constant.
-/

/-! ## config.py -/

/-- Source constant `config.CHUNK_SIZE = 200` (number of words per chunk). -/
def CHUNK_SIZE : Int := 200

/-- Source constant `config.CHUNK_OVERLAP = 50` (words of overlap between chunks).
`config.py` performs no validation relating `CHUNK_OVERLAP` to
`CHUNK_SIZE`: the two constants are plain assignments. -/
def CHUNK_OVERLAP : Int := 50

/-- Source constant `config.TOP_K_RESULTS = 5`. -/
def TOP_K_RESULTS : Nat := 5

/-- Source constant `config.CONTEXT_RELEVANCE_THRESHOLD = 1.5`. -/
def CONTEXT_RELEVANCE_THRESHOLD : ℚ := 3 / 2

/-- Source constant `config.CONVERSATION_HISTORY_LIMIT = 10`. -/
def CONVERSATION_HISTORY_LIMIT : Nat := 10

/-- Source constant `config.CONVERSATION_CONTEXT_WINDOW = 3`. -/
def CONVERSATION_CONTEXT_WINDOW : Nat := 3

/-! ## Python primitives used by the embedded code -/

/-- Worker for `splitWs`: scans the character list, accumulating the
(reversed) current word; whitespace ends the current word, and runs of
whitespace produce no empty words. -/
def splitWsAux : List Char → List Char → List String
  | [], acc => if acc.isEmpty then [] else [String.mk acc.reverse]
  | c :: cs, acc =>
    if c.isWhitespace then
      if acc.isEmpty then splitWsAux cs []
      else String.mk acc.reverse :: splitWsAux cs []
    else splitWsAux cs (c :: acc)

/-- Python `str.split()` with no argument: split on runs of whitespace,
discarding empty pieces. -/
def splitWs (s : String) : List String :=
  splitWsAux s.toList []

/-- Normalize one end of a Python slice of a sequence of length `n`:
negative indices count from the end and are clamped at `0`; nonnegative
indices are clamped at `n`. -/
def pySliceIdx (n : Nat) (i : Int) : Nat :=
  if i < 0 then (max (i + n) 0).toNat else min i.toNat n

/-- Python slice `l[start:stop]`. -/
def pySlice {α : Type} (l : List α) (start stop : Int) : List α :=
  (l.take (pySliceIdx l.length stop)).drop (pySliceIdx l.length start)

/-- Python indexing `l[i]`: negative `i` counts from the end; an index out
of range raises (`none`). -/
def pyGet {α : Type} (l : List α) (i : Int) : Option α :=
  let j : Int := if i < 0 then (l.length : Int) + i else i
  if 0 ≤ j then l.get? j.toNat else none

/-- Python list comprehension `[g(x) for x in xs]` where `g` may raise:
the first raise propagates (`none`). -/
def mapMOption {α β : Type} (f : α → Option β) : List α → Option (List β)
  | [] => some []
  | a :: rest => do
    let b ← f a
    let bs ← mapMOption f rest
    pure (b :: bs)

/-! ## text_processor.py -/

/-- The `while start < len(words)` loop body of `chunk_text`, with explicit
fuel. One fuel unit is spent per loop iteration, so `none` means the loop
ran longer than `fuel` iterations. Source (`text_processor.py` lines 24-30):
each iteration slices `words[start:start+chunk_size]`, joins with single
spaces, appends it, and sets `start = end - overlap`; the loop exits when
`start >= len(words)` (the trailing `break` test and the `while` guard are
the same condition). -/
def chunkTextAux (size overlap : Int) (words : List String) :
    Nat → Int → List String → Option (List String)
  | 0, start, acc =>
    if start < (words.length : Int) then none else some acc
  | fuel + 1, start, acc =>
    if start < (words.length : Int) then
      let stop := start + size
      let chunk := String.intercalate " " (pySlice words start stop)
      chunkTextAux size overlap words fuel (stop - overlap) (acc ++ [chunk])
    else some acc

/-- Source function `text_processor.chunk_text(text, chunk_size, overlap)`. The loop
advances `start` by `size - overlap` per iteration, so when the advance is
positive, `len(words) + 1` fuel units always suffice; `none` therefore
means the Python loop diverges. -/
def chunk_text (text : String) (size overlap : Int) : Option (List String) :=
  let words := splitWs text
  chunkTextAux size overlap words (words.length + 1) 0 []

/-- Chunk metadata: the code stores `{"source_file": name}` dictionaries. -/
structure ChunkMeta where
  source_file : String
deriving DecidableEq, Repr

/-- The `for doc, meta in zip(documents, metadata)` loop of
`process_documents_for_chunking`: chunks every document and replicates its
metadata once per produced chunk, flattening in document order. -/
def processChunkAux (size overlap : Int) :
    List (String × ChunkMeta) → Option (List String × List ChunkMeta)
  | [] => some ([], [])
  | (doc, m) :: rest => do
    let cs ← chunk_text doc size overlap
    let (tailChunks, tailMeta) ← processChunkAux size overlap rest
    pure (cs ++ tailChunks, List.replicate cs.length m ++ tailMeta)

/-- Source function `text_processor.process_documents_for_chunking`. -/
def process_documents_for_chunking (documents : List String)
    (metadata : List ChunkMeta) (size overlap : Int) :
    Option (List String × List ChunkMeta) :=
  processChunkAux size overlap (documents.zip metadata)

/-! ## FAISS flat L2 index (collaborator model)

The repository uses `faiss.IndexFlatL2`. The model stores the added vectors
as a list; `search` returns, for a query, the `k` smallest squared-L2
distances with their positions, ties broken by lower position, and — as
FAISS documents for `k > ntotal` — pads the result out to length `k` with
distance `FLT_MAX` and id `-1`. -/

/-- Squared L2 distance between two vectors (FAISS `IndexFlatL2` metric;
FAISS returns squared distances). -/
def sqDist (x y : List Int) : Int :=
  ((x.zip y).map fun p => (p.1 - p.2) ^ 2).sum

/-- Stand-in for the single-precision `FLT_MAX` value FAISS uses to pad
distance results when `k` exceeds the number of stored vectors. -/
def fltMax : ℚ := 2 ^ 128

/-- A FAISS flat index, modelled by the list of vectors added to it. -/
structure FaissIndex where
  xb : List (List Int)
deriving DecidableEq, Repr

/-- FAISS `index.ntotal`: the number of stored vectors. -/
def FaissIndex.ntotal (idx : FaissIndex) : Nat :=
  idx.xb.length

/-- Ordering of (position, squared distance) result pairs: by distance,
ties by lower position. -/
def searchLE (a b : Nat × Int) : Prop :=
  a.2 < b.2 ∨ (a.2 = b.2 ∧ a.1 ≤ b.1)

instance : DecidableRel searchLE := fun a b => by
  unfold searchLE; infer_instance

/-- FAISS `index.search(q, k)` for a single query vector: the `(distances,
ids)` row pair. The first `min k ntotal` entries are the nearest stored
vectors; the remaining `k - ntotal` entries (when `k > ntotal`) are padded
with `FLT_MAX` / `-1`. -/
def FaissIndex.search (idx : FaissIndex) (q : List Int) (k : Nat) :
    List ℚ × List Int :=
  let scored := (List.range idx.xb.length).map fun i => (i, sqDist (idx.xb.getD i []) q)
  let sorted := scored.insertionSort searchLE
  let top := sorted.take k
  (top.map (fun p => (p.2 : ℚ)) ++ List.replicate (k - idx.xb.length) fltMax,
   top.map (fun p => (p.1 : Int)) ++ List.replicate (k - idx.xb.length) (-1))

/-! ## vector_store.py

The embedding model's `encode` is a parameter `encode : List String → List
(List Int)` (sentence-transformers collaborator: one vector per input
text). `calculate_files_hash(folder_path)` from `document_loader.py` is
abstracted as the `Option String` value it returns for the folder; the
four persisted artifacts (`faiss_index.bin`, `chunks.pkl`, `metadata.pkl`,
`files_hash.txt`) are modelled as one `Option PersistedStore` — `none`
when not all four are present. `get_or_build` also returns the disk state
after the call and the number of times it invoked `encode`. -/

/-- The four artifacts of a persisted vector store. -/
structure PersistedStore where
  index : FaissIndex
  chunks : List String
  chunk_metadata : List ChunkMeta
  filesHash : String
deriving DecidableEq, Repr

/-- Source method `VectorStore.build`: chunk the documents with the config
parameters, encode all chunks (one `encode` call), and build a flat L2
index over the returned vectors (`index.add(embeddings)` adds one row per
chunk). -/
def VectorStore.build (encode : List String → List (List Int))
    (documents : List String) (metadata : List ChunkMeta) :
    Option (FaissIndex × List String × List ChunkMeta) :=
  (process_documents_for_chunking documents metadata CHUNK_SIZE CHUNK_OVERLAP).map
    fun p => (⟨encode p.1⟩, p.1, p.2)

/-- Source method `VectorStore.exists`: all four artifact files present,
`calculate_files_hash` not `None`, and the stored hash equal to the
current hash. -/
def VectorStore.existsCheck (disk : Option PersistedStore)
    (currentHash : Option String) : Bool :=
  match disk, currentHash with
  | some s, some ch => s.filesHash == ch
  | _, _ => false

/-- Source method `VectorStore.load`: deserialize the persisted triple
(`None` when it cannot be read). -/
def VectorStore.load (disk : Option PersistedStore) :
    Option (FaissIndex × List String × List ChunkMeta) :=
  disk.map fun s => (s.index, s.chunks, s.chunk_metadata)

/-- The build-then-save tail of `VectorStore.get_or_build`: build (one
`encode` call), then, when `calculate_files_hash` returns a value, save the
four artifacts under it; a failed save (`saveOk = false`) is swallowed and
leaves the disk as it was. -/
def VectorStore.buildAndSave (encode : List String → List (List Int))
    (saveOk : Bool) (currentHash : Option String)
    (disk : Option PersistedStore) (documents : List String)
    (metadata : List ChunkMeta) :
    Option ((FaissIndex × List String × List ChunkMeta) ×
      Option PersistedStore × Nat) :=
  (VectorStore.build encode documents metadata).map fun t =>
    let newDisk := match currentHash with
      | some h => if saveOk then some ⟨t.1, t.2.1, t.2.2, h⟩ else disk
      | none => disk
    (t, newDisk, 1)

/-- Source method `VectorStore.get_or_build`: when the persisted store
exists and is up to date, load and return it (falling through to a rebuild
if deserialization fails); otherwise build, save, and return the fresh
triple. The `Nat` component counts `encode` invocations. -/
def VectorStore.get_or_build (encode : List String → List (List Int))
    (saveOk : Bool) (currentHash : Option String)
    (disk : Option PersistedStore) (documents : List String)
    (metadata : List ChunkMeta) :
    Option ((FaissIndex × List String × List ChunkMeta) ×
      Option PersistedStore × Nat) :=
  if VectorStore.existsCheck disk currentHash then
    match VectorStore.load disk with
    | some r => some (r, disk, 0)
    | none => VectorStore.buildAndSave encode saveOk currentHash disk documents metadata
  else
    VectorStore.buildAndSave encode saveOk currentHash disk documents metadata

/-! ## rag_engine.py

The Gemini model is the parameter `generate : String → Except String
String` (`Except.error` models a raised exception, whose payload is
`str(e)`), and the `make_response_natural` post-processor from
`response_processor.py` is the parameter `make_natural : String → String →
String` (answer, question). Conversation history entries are (question,
answer) pairs. -/

/-- Source method `RAGEngine._build_system_instruction`. The source returns
one long constant prose literal; only its first sentence is reproduced
here — the literal takes no part in any control flow, it is only
concatenated into the prompt. -/
def RAGEngine.build_system_instruction : String :=
  "You are a friendly and helpful AI assistant for Empiric Infotech."

/-- Source method `RAGEngine._build_conversation_context`: empty when the
history is empty, otherwise a header followed by the last
`CONVERSATION_CONTEXT_WINDOW` exchanges (Python `history[-3:]`). -/
def RAGEngine.build_conversation_context
    (history : List (String × String)) : String :=
  if history.isEmpty then ""
  else
    "\n\nPrevious conversation:\n" ++
      String.join
        ((history.drop (history.length - CONVERSATION_CONTEXT_WINDOW)).map
          fun e => "User: " ++ e.1 ++ "\n" ++ "Assistant: " ++ e.2 ++ "\n\n")

/-- Source method `RAGEngine._retrieve_context`: embed the question, search
the index with `top_k` (passed through unchanged), look the returned
positions up in `all_chunks` and `chunk_metadata` with Python list
indexing, join the tagged chunks, and take the mean of the returned
distances (`float('inf')`, modelled `none`, when no distances came back).
A failed lookup (IndexError) makes the whole call raise: `none`. -/
def RAGEngine.retrieve_context (encode : String → List Int)
    (question : String) (index : FaissIndex) (all_chunks : List String)
    (chunk_metadata : List ChunkMeta) (top_k : Nat) :
    Option (String × Option ℚ) :=
  let q_emb := encode question
  let sr := index.search q_emb top_k
  let distances := sr.1
  let indices := sr.2
  match mapMOption (pyGet all_chunks) indices,
    mapMOption (fun i => (pyGet chunk_metadata i).map fun m => m.source_file) indices with
  | some relevant_chunks, some relevant_sources =>
    let context := String.intercalate "\n\n---\n\n"
      ((relevant_chunks.zip relevant_sources).map
        fun p => "[Source: " ++ p.2 ++ "]\n" ++ p.1)
    let avg_distance : Option ℚ :=
      if 0 < distances.length then some (distances.sum / distances.length)
      else none
    some (context, avg_distance)
  | _, _ => none

/-- Python comparison `avg_distance > CONTEXT_RELEVANCE_THRESHOLD`, where
`avg_distance` may be `float('inf')` (modelled `none`, greater than every
threshold). -/
def distGtThreshold (d : Option ℚ) (t : ℚ) : Bool :=
  match d with
  | none => true
  | some q => decide (t < q)

/-- History update at the end of a successful `RAGEngine.ask`: append the
(question, answer) pair, then `pop(0)` once if the length now exceeds
`CONVERSATION_HISTORY_LIMIT`. -/
def RAGEngine.appendHistory (history : List (String × String))
    (question answer : String) : List (String × String) :=
  let h := history ++ [(question, answer)]
  if CONVERSATION_HISTORY_LIMIT < h.length then h.drop 1 else h

/-- Source method `RAGEngine.ask`: retrieve context (outside the `try`
block — a retrieval failure propagates as `none`), assemble the prompt,
call the generator inside `try`; on success post-process the answer,
append to history and evict; on a generator exception return the error
string with the history untouched. Returns (answer, new history). The
constant prose tail of the prompt literal is reproduced only up to its
first sentence (it takes no part in control flow). -/
def RAGEngine.ask (encode : String → List Int)
    (generate : String → Except String String)
    (make_natural : String → String → String)
    (history : List (String × String)) (question : String)
    (index : FaissIndex) (all_chunks : List String)
    (chunk_metadata : List ChunkMeta) :
    Option (String × List (String × String)) :=
  match RAGEngine.retrieve_context encode question index all_chunks
      chunk_metadata TOP_K_RESULTS with
  | none => none
  | some (context, avg_distance) =>
    let system_instruction := RAGEngine.build_system_instruction
    let conversation_context := RAGEngine.build_conversation_context history
    let context_relevance_note :=
      if distGtThreshold avg_distance CONTEXT_RELEVANCE_THRESHOLD then
        "\n\nNote: The retrieved context may not be highly relevant to this question. " ++
          "Provide a helpful response and suggest alternative ways to get the information."
      else ""
    let full_prompt := system_instruction ++ "\n\n" ++ conversation_context ++
      "\n\nContext from knowledge base:\n" ++ context ++ "\n" ++
      context_relevance_note ++ "\n\nUser Question: " ++ question ++
      "\n\nPlease provide a natural, conversational, and helpful answer."
    match generate full_prompt with
    | Except.error e => some ("Error generating response: " ++ e, history)
    | Except.ok text =>
      let answer := make_natural text question
      some (answer, RAGEngine.appendHistory history question answer)

/-- Source method `RAGEngine.clear_history`. -/
def RAGEngine.clear_history (_history : List (String × String)) :
    List (String × String) :=
  []

/-! ## chatbot.py -/

/-- The mutable fields of `Chatbot` relevant to `ask`: the vector store
triple (`None` until `initialize` has run — `index`, `all_chunks` and
`chunk_metadata` are assigned together) and the engine's conversation
history. -/
structure ChatbotState where
  vector_data : Option (FaissIndex × List String × List ChunkMeta)
  history : List (String × String)
deriving DecidableEq, Repr

/-- Source method `Chatbot.ask`: when `self.index is None` return the
fixed error string without touching anything else; otherwise delegate to
`RAGEngine.ask` with the stored triple. Returns (answer, new state). -/
def Chatbot.ask (encode : String → List Int)
    (generate : String → Except String String)
    (make_natural : String → String → String)
    (st : ChatbotState) (question : String) :
    Option (String × ChatbotState) :=
  match st.vector_data with
  | none =>
    some ("Error: Chatbot not initialized. Please call initialize() first.", st)
  | some t =>
    (RAGEngine.ask encode generate make_natural st.history question
        t.1 t.2.1 t.2.2).map
      fun r => (r.1, ⟨st.vector_data, r.2⟩)

/-- Folding a sequence of successfully answered (question, answer)
exchanges through the history update of `RAGEngine.ask`. -/
def runSuccessfulAsks (history : List (String × String))
    (exchanges : List (String × String)) : List (String × String) :=
  exchanges.foldl (fun h e => RAGEngine.appendHistory h e.1 e.2) history

/-- Mutual consistency of a returned triple: the chunk and metadata
sequences have the same length as the number of vectors in the index. -/
def consistentTriple (t : FaissIndex × List String × List ChunkMeta) : Prop :=
  t.2.1.length = t.2.2.length ∧ t.1.ntotal = t.2.1.length

/-! ## Helper lemmas -/

lemma chunkTextAux_stop (size overlap : Int) (words : List String)
    (fuel : Nat) (start : Int) (acc : List String)
    (h : ¬ start < (words.length : Int)) :
    chunkTextAux size overlap words fuel start acc = some acc := by
  cases fuel <;> simp [chunkTextAux, h]

lemma chunkTextAux_none_of_nonpos_advance (size overlap : Int)
    (words : List String) (hso : size ≤ overlap) (hw : 0 < words.length) :
    ∀ (fuel : Nat) (start : Int), start ≤ 0 → ∀ acc,
      chunkTextAux size overlap words fuel start acc = none := by
  intro fuel
  induction fuel with
  | zero =>
    intro start hst acc
    have : start < (words.length : Int) := by
      have : (0 : Int) < (words.length : Int) := by exact_mod_cast hw
      omega
    simp [chunkTextAux, this]
  | succ n ih =>
    intro start hst acc
    have hlt : start < (words.length : Int) := by
      have : (0 : Int) < (words.length : Int) := by exact_mod_cast hw
      omega
    simp only [chunkTextAux, if_pos hlt]
    exact ih (start + size - overlap) (by omega) _

lemma chunkTextAux_isSome (size overlap : Int) (words : List String)
    (hadv : 0 < size - overlap) :
    ∀ (fuel : Nat) (start : Int) (acc : List String),
      (words.length : Int) ≤ start + fuel →
      (chunkTextAux size overlap words fuel start acc).isSome := by
  intro fuel
  induction fuel with
  | zero =>
    intro start acc hle
    have : ¬ start < (words.length : Int) := by omega
    simp [chunkTextAux_stop _ _ _ _ _ _ this]
  | succ n ih =>
    intro start acc hle
    by_cases hlt : start < (words.length : Int)
    · simp only [chunkTextAux, if_pos hlt]
      have hc : (words.length : Int) ≤ (start + size - overlap) + n := by
        push_cast at hle ⊢
        omega
      exact ih (start + size - overlap) _ hc
    · simp [chunkTextAux_stop _ _ _ _ _ _ hlt]

lemma chunk_text_isSome (text : String) (size overlap : Int)
    (hadv : 0 < size - overlap) : (chunk_text text size overlap).isSome := by
  unfold chunk_text
  apply chunkTextAux_isSome _ _ _ hadv
  push_cast
  omega

lemma processChunkAux_isSome (size overlap : Int) (hadv : 0 < size - overlap) :
    ∀ l : List (String × ChunkMeta), (processChunkAux size overlap l).isSome := by
  intro l
  induction l with
  | nil => simp [processChunkAux]
  | cons dm rest ih =>
    obtain ⟨cs, hcs⟩ := Option.isSome_iff_exists.mp
      (chunk_text_isSome dm.1 size overlap hadv)
    obtain ⟨pr, hpr⟩ := Option.isSome_iff_exists.mp ih
    simp [processChunkAux, hcs, hpr]

lemma processChunkAux_align (size overlap : Int) :
    ∀ (l : List (String × ChunkMeta)) (cs : List String) (ms : List ChunkMeta),
      processChunkAux size overlap l = some (cs, ms) → cs.length = ms.length := by
  intro l
  induction l with
  | nil =>
    intro cs ms h
    simp only [processChunkAux, Option.some.injEq, Prod.mk.injEq] at h
    rw [← h.1, ← h.2]
    rfl
  | cons dm rest ih =>
    intro cs ms h
    simp only [processChunkAux, Option.bind_eq_bind, Option.bind_eq_some] at h
    obtain ⟨c, hc, pr, hpr, heq⟩ := h
    obtain ⟨h1, h2⟩ := Prod.mk.injEq .. ▸ Option.some.inj heq
    have := ih pr.1 pr.2 (by simpa using hpr)
    simp [← h1, ← h2, this]

lemma appendHistory_length_le (h : List (String × String)) (q a : String)
    (hle : h.length ≤ CONVERSATION_HISTORY_LIMIT) :
    (RAGEngine.appendHistory h q a).length ≤ CONVERSATION_HISTORY_LIMIT := by
  unfold RAGEngine.appendHistory
  by_cases hc : CONVERSATION_HISTORY_LIMIT < (h ++ [(q, a)]).length
  · rw [if_pos hc, List.length_drop]
    simp only [List.length_append, List.length_singleton] at hle hc ⊢
    omega
  · rw [if_neg hc]
    omega

lemma runSuccessfulAsks_eq_drop :
    ∀ (qas : List (String × String)) (h : List (String × String)),
      h.length ≤ CONVERSATION_HISTORY_LIMIT →
      runSuccessfulAsks h qas =
        (h ++ qas).drop (h.length + qas.length - CONVERSATION_HISTORY_LIMIT) := by
  intro qas
  induction qas with
  | nil =>
    intro h hle
    simp only [runSuccessfulAsks, List.foldl_nil, List.append_nil, List.length_nil,
      Nat.add_zero]
    rw [Nat.sub_eq_zero_of_le hle, List.drop_zero]
  | cons qa rest ih =>
    intro h hle
    have step : runSuccessfulAsks h (qa :: rest) =
        runSuccessfulAsks (RAGEngine.appendHistory h qa.1 qa.2) rest := by
      simp [runSuccessfulAsks]
    rw [step, ih _ (appendHistory_length_le h qa.1 qa.2 hle)]
    unfold RAGEngine.appendHistory
    by_cases hc : CONVERSATION_HISTORY_LIMIT < (h ++ [(qa.1, qa.2)]).length
    · rw [if_pos hc]
      simp only [List.length_append, List.length_singleton] at hc
      have e1 : ((h ++ [(qa.1, qa.2)]).drop 1).length = h.length := by
        simp
      rw [e1]
      have e3 : (h ++ [(qa.1, qa.2)]).drop 1 ++ rest =
          ((h ++ [(qa.1, qa.2)]) ++ rest).drop 1 :=
        (List.drop_append_of_le_length (by simp)).symm
      rw [e3, List.drop_drop]
      have e2 : (h ++ [(qa.1, qa.2)]) ++ rest = h ++ (qa :: rest) := by
        simp
      rw [e2]
      have hidx : 1 + (h.length + rest.length - CONVERSATION_HISTORY_LIMIT) =
          h.length + (qa :: rest).length - CONVERSATION_HISTORY_LIMIT := by
        simp only [List.length_cons]
        omega
      rw [hidx]
    · rw [if_neg hc]
      simp only [List.length_append, List.length_singleton] at hc
      have e2 : (h ++ [(qa.1, qa.2)]) ++ rest = h ++ (qa :: rest) := by
        simp
      rw [e2]
      have hidx : (h ++ [(qa.1, qa.2)]).length + rest.length -
          CONVERSATION_HISTORY_LIMIT =
          h.length + (qa :: rest).length - CONVERSATION_HISTORY_LIMIT := by
        simp only [List.length_append, List.length_singleton, List.length_cons,
          List.length_nil]
        omega
      rw [hidx]

lemma mapMOption_isSome_of_forall {α β : Type} (f : α → Option β) :
    ∀ l : List α, (∀ a ∈ l, (f a).isSome) → (mapMOption f l).isSome := by
  intro l
  induction l with
  | nil => intro _; simp [mapMOption]
  | cons a rest ih =>
    intro hall
    obtain ⟨b, hb⟩ := Option.isSome_iff_exists.mp (hall a (by simp))
    obtain ⟨bs, hbs⟩ := Option.isSome_iff_exists.mp
      (ih fun x hx => hall x (by simp [hx]))
    simp [mapMOption, hb, hbs]

lemma pyGet_isSome_of_lt {α : Type} (l : List α) (i : Int)
    (h0 : 0 ≤ i) (h1 : i < (l.length : Int)) : (pyGet l i).isSome := by
  unfold pyGet
  have hni : ¬ i < 0 := by omega
  simp only [hni, if_false, if_pos h0]
  rw [List.get?_eq_getElem?]
  simp only [Option.isSome_iff_exists]
  have : i.toNat < l.length := by omega
  exact ⟨l[i.toNat], (List.getElem?_eq_getElem this)⟩

lemma search_ids_mem (idx : FaissIndex) (q : List Int) (k : Nat)
    (hk : k ≤ idx.ntotal) :
    ∀ i ∈ (idx.search q k).2, 0 ≤ i ∧ i < (idx.ntotal : Int) := by
  intro i hi
  unfold FaissIndex.search at hi
  have hzero : k - idx.xb.length = 0 := by
    unfold FaissIndex.ntotal at hk
    omega
  simp only [hzero, List.replicate_zero, List.append_nil, List.mem_map] at hi
  obtain ⟨p, hp, hpi⟩ := hi
  have hp2 : p ∈ (((List.range idx.xb.length).map
      fun i => (i, sqDist (idx.xb.getD i []) q)).insertionSort searchLE) :=
    List.mem_of_mem_take hp
  have hp3 : p ∈ ((List.range idx.xb.length).map
      fun i => (i, sqDist (idx.xb.getD i []) q)) :=
    (List.perm_insertionSort searchLE _).mem_iff.mp hp2
  simp only [List.mem_map, List.mem_range] at hp3
  obtain ⟨j, hj, hje⟩ := hp3
  have : p.1 = j := by rw [← hje]
  unfold FaissIndex.ntotal
  constructor
  · rw [← hpi, this]
    exact Int.ofNat_nonneg j
  · rw [← hpi, this]
    exact_mod_cast hj

lemma pySlice_all {α : Type} (l : List α) (stop : Int)
    (h : (l.length : Int) ≤ stop) : pySlice l 0 stop = l := by
  have hs : ¬ stop < 0 := by omega
  have e1 : pySliceIdx l.length stop = l.length := by
    unfold pySliceIdx
    rw [if_neg hs]
    omega
  have e2 : pySliceIdx l.length 0 = 0 := by
    unfold pySliceIdx
    norm_num
  unfold pySlice
  rw [e1, e2, List.take_length, List.drop_zero]

/-! ## Claim theorems -/

/-- C3 (counterexample): `chunk_text` on the 9-word example with `size = 4`,
`overlap = 2` does NOT return the three chunks the claim lists — the loop
advances `start` by `size - overlap = 2`, producing five windows starting
at word offsets 0, 2, 4, 6, 8. -/
theorem chunk_text_spec_example_refuted :
    chunk_text "The quick brown fox jumps over the lazy dog" 4 2 ≠
      some ["The quick brown fox", "fox jumps over the", "the lazy dog"] := by
  decide

/-- C3 (amended): `chunk_text` on the 9-word example with `size = 4`,
`overlap = 2` returns exactly the five chunks of the windows starting at
word offsets 0, 2, 4, 6, 8. -/
theorem chunk_text_example_size4_overlap2 :
    chunk_text "The quick brown fox jumps over the lazy dog" 4 2 =
      some ["The quick brown fox", "brown fox jumps over", "jumps over the lazy",
        "the lazy dog", "dog"] := by
  decide

/-- C4 (counterexample): a 3-word text with `size = 4`, `overlap = 2`
satisfies the claim's premises (`N ≤ size`, `0 ≤ overlap < size`) yet
`chunk_text` returns two chunks, not one: after emitting the whole text the
loop restarts at `start = size - overlap = 2 < N` and emits a tail chunk. -/
theorem chunk_text_single_chunk_refuted :
    (((splitWs "a b c").length : Int) ≤ 4 ∧ (0 : Int) ≤ 2 ∧ (2 : Int) < 4) ∧
      chunk_text "a b c" 4 2 = some ["a b c", "c"] ∧
      chunk_text "a b c" 4 2 ≠
        some [String.intercalate " " (splitWs "a b c")] := by
  decide

/-- C4 (amended): for every text whose whitespace-split word count `N`
satisfies `1 ≤ N ≤ size - overlap` (with `0 ≤ overlap < size`),
`chunk_text` returns exactly one chunk containing the whole text, its words
joined by single spaces. (The claim's bound `N ≤ size` is too weak: for
`size - overlap < N ≤ size` a trailing overlap chunk follows, and for
`N = 0` the result is no chunks at all.) -/
theorem chunk_text_single_chunk (text : String) (size overlap : Int)
    (h0 : 0 ≤ overlap) (h1 : overlap < size)
    (hN1 : 1 ≤ (splitWs text).length)
    (hN2 : ((splitWs text).length : Int) ≤ size - overlap) :
    chunk_text text size overlap =
      some [String.intercalate " " (splitWs text)] := by
  unfold chunk_text
  have hNpos : (0 : Int) < ((splitWs text).length : Int) := by exact_mod_cast hN1
  simp only [chunkTextAux, if_pos hNpos]
  rw [chunkTextAux_stop _ _ _ _ _ _ (by omega)]
  rw [pySlice_all (splitWs text) (0 + size) (by omega)]
  simp

/-- Witness for C4 (amended) at a concrete 2-word input. -/
theorem chunk_text_single_chunk_witness :
    chunk_text "a b" 4 2 = some [String.intercalate " " (splitWs "a b")] :=
  chunk_text_single_chunk "a b" 4 2 (by norm_num) (by norm_num) (by decide)
    (by decide)

/-- C5: the code performs no configuration-time validation of
`CHUNK_OVERLAP` against `CHUNK_SIZE` (both are plain constants in
`config.py`), and for `overlap ≥ size` the `chunk_text` loop never
terminates: with `size = overlap = 2` on a one-word text, `start` stays at
`0` forever, so the loop is still running after any number of iterations
(`none` for every fuel). -/
theorem chunk_text_nonpos_advance_diverges :
    (∀ (fuel : Nat) (acc : List String),
        chunkTextAux 2 2 ["a"] fuel 0 acc = none) ∧
      chunk_text "a" 2 2 = none := by
  constructor
  · intro fuel acc
    exact chunkTextAux_none_of_nonpos_advance 2 2 ["a"] (by norm_num)
      (by norm_num) fuel 0 (by norm_num) acc
  · decide

/-- C7: a query against an empty index does not return empty context and
infinite distance — it raises. FAISS pads the id row with `-1` (five of
them for `top_k = 5`), and the chunk lookup `all_chunks[i]` on the empty
chunk list raises IndexError, so `_retrieve_context` propagates an
exception (`none`), for every embedder and every question. -/
theorem retrieve_context_empty_index_raises :
    ∀ (encode : String → List Int) (question : String),
      RAGEngine.retrieve_context encode question ⟨[]⟩ [] [] TOP_K_RESULTS =
        none := by
  intro encode question
  rfl

/-- C10: calling `Chatbot.ask` while `self.index` is still `None` returns
the fixed error string and leaves the state (including conversation
history) unchanged, for every embedder and generator — neither is
invoked. -/
theorem chatbot_ask_uninitialized (encode : String → List Int)
    (generate : String → Except String String)
    (make_natural : String → String → String)
    (st : ChatbotState) (question : String) (h : st.vector_data = none) :
    Chatbot.ask encode generate make_natural st question =
      some ("Error: Chatbot not initialized. Please call initialize() first.",
        st) := by
  unfold Chatbot.ask
  rw [h]

/-- Witness for C10 at a concrete uninitialized state. -/
theorem chatbot_ask_uninitialized_witness :
    Chatbot.ask (fun _ => [0]) (fun p => Except.ok p) (fun a _ => a)
      ⟨none, [("q0", "a0")]⟩ "hi" =
      some ("Error: Chatbot not initialized. Please call initialize() first.",
        ⟨none, [("q0", "a0")]⟩) :=
  chatbot_ask_uninitialized _ _ _ _ _ rfl

/-- C6 (counterexample): with one stored vector and the configured
`top_k = 5`, no clamping to `min(k, index.size)` happens — the id row the
chunk lookups iterate over contains `-1` entries, which are not valid
in-range positions; Python resolves `-1` by negative indexing to the last
chunk instead. -/
theorem retrieval_no_clamping_refuted :
    (-1 : Int) ∈ (FaissIndex.search ⟨[[0]]⟩ [0] TOP_K_RESULTS).2 ∧
      ¬ (∀ i ∈ (FaissIndex.search ⟨[[0]]⟩ [0] TOP_K_RESULTS).2,
          0 ≤ i ∧ i < ((["c0"] : List String).length : Int)) ∧
      pyGet (["c0"] : List String) (-1) = some "c0" := by
  decide

/-- C6 (amended): the code passes `top_k` to `index.search` unclamped.
Whenever `top_k ≤ index.ntotal` and the alignment invariant holds, every
position in the returned id row is a valid in-range position of the chunk
and metadata sequences and the retrieval succeeds; when
`index.ntotal < top_k` the row is padded with `-1`, which the lookup
resolves by Python negative indexing to the last chunk (raising on an
empty chunk list). -/
theorem retrieval_positions_in_range_when_k_le
    (encode : String → List Int) (question : String) (idx : FaissIndex)
    (all_chunks : List String) (chunk_metadata : List ChunkMeta) (top_k : Nat)
    (hk : top_k ≤ idx.ntotal) (hc : idx.ntotal = all_chunks.length)
    (hm : all_chunks.length = chunk_metadata.length) :
    (∀ i ∈ (idx.search (encode question) top_k).2,
        0 ≤ i ∧ i < (all_chunks.length : Int)) ∧
      (RAGEngine.retrieve_context encode question idx all_chunks chunk_metadata
        top_k).isSome := by
  have hmem := search_ids_mem idx (encode question) top_k hk
  have hmem' : ∀ i ∈ (idx.search (encode question) top_k).2,
      0 ≤ i ∧ i < (all_chunks.length : Int) := by
    intro i hi
    have h := hmem i hi
    exact ⟨h.1, by rw [← hc]; exact h.2⟩
  refine ⟨hmem', ?_⟩
  have h1 : (mapMOption (pyGet all_chunks)
      (idx.search (encode question) top_k).2).isSome :=
    mapMOption_isSome_of_forall _ _ fun i hi =>
      pyGet_isSome_of_lt _ _ (hmem' i hi).1 (hmem' i hi).2
  have h2 : (mapMOption
      (fun i => (pyGet chunk_metadata i).map fun m => m.source_file)
      (idx.search (encode question) top_k).2).isSome := by
    apply mapMOption_isSome_of_forall
    intro i hi
    have hg : (pyGet chunk_metadata i).isSome :=
      pyGet_isSome_of_lt _ _ (hmem' i hi).1 (by
        have := (hmem' i hi).2
        rw [hm] at this
        exact this)
    obtain ⟨m, hm'⟩ := Option.isSome_iff_exists.mp hg
    simp [hm']
  obtain ⟨cs, hcs⟩ := Option.isSome_iff_exists.mp h1
  obtain ⟨ss, hss⟩ := Option.isSome_iff_exists.mp h2
  unfold RAGEngine.retrieve_context
  simp only [hcs, hss]
  rfl

/-- Witness for C6 (amended) on a 5-vector index with `top_k = 5`. -/
theorem retrieval_positions_in_range_when_k_le_witness :
    (RAGEngine.retrieve_context (fun _ => [0]) "hi" ⟨[[0], [1], [2], [3], [4]]⟩
      ["c0", "c1", "c2", "c3", "c4"]
      [⟨"f0"⟩, ⟨"f1"⟩, ⟨"f2"⟩, ⟨"f3"⟩, ⟨"f4"⟩] TOP_K_RESULTS).isSome :=
  (retrieval_positions_in_range_when_k_le (fun _ => [0]) "hi" _ _ _ _
    (by decide) (by decide) (by decide)).2

/-- C8: starting from an empty history, `CONVERSATION_HISTORY_LIMIT + 5`
successfully answered questions leave exactly the
`CONVERSATION_HISTORY_LIMIT` most recent (question, answer) pairs in
order (the 5 oldest evicted from the front, FIFO), and no successful ask
ever pushes the history length above the limit. -/
theorem history_eviction (qas : List (String × String))
    (hlen : qas.length = CONVERSATION_HISTORY_LIMIT + 5) :
    runSuccessfulAsks [] qas = qas.drop 5 ∧
      (runSuccessfulAsks [] qas).length = CONVERSATION_HISTORY_LIMIT ∧
      ∀ (h : List (String × String)) (q a : String),
        h.length ≤ CONVERSATION_HISTORY_LIMIT →
        (RAGEngine.appendHistory h q a).length ≤ CONVERSATION_HISTORY_LIMIT := by
  have key := runSuccessfulAsks_eq_drop qas [] (by simp)
  simp only [List.nil_append, List.length_nil, Nat.zero_add] at key
  rw [hlen] at key
  have h5 : CONVERSATION_HISTORY_LIMIT + 5 - CONVERSATION_HISTORY_LIMIT = 5 := by
    omega
  rw [h5] at key
  refine ⟨key, ?_, fun h q a hle => appendHistory_length_le h q a hle⟩
  rw [key, List.length_drop, hlen]
  omega

/-- Witness for C8 at 15 concrete exchanges. -/
theorem history_eviction_witness :
    runSuccessfulAsks [] (List.replicate 15 ("q", "a")) =
        (List.replicate 15 ("q", "a")).drop 5 ∧
      (runSuccessfulAsks [] (List.replicate 15 ("q", "a"))).length =
        CONVERSATION_HISTORY_LIMIT :=
  ⟨(history_eviction (List.replicate 15 ("q", "a")) (by decide)).1,
   (history_eviction (List.replicate 15 ("q", "a")) (by decide)).2.1⟩

/-- C9: when the generator call raises (every prompt produces an
exception with message `msg`) and retrieval itself succeeds,
`RAGEngine.ask` returns the error string built from the exception text and
leaves the conversation history exactly as it was — the failed exchange is
not appended. -/
theorem ask_generation_error_preserves_history
    (encode : String → List Int) (generate : String → Except String String)
    (make_natural : String → String → String) (msg : String)
    (history : List (String × String)) (question : String)
    (index : FaissIndex) (all_chunks : List String)
    (chunk_metadata : List ChunkMeta)
    (hgen : ∀ p, generate p = Except.error msg)
    (hret : (RAGEngine.retrieve_context encode question index all_chunks
      chunk_metadata TOP_K_RESULTS).isSome) :
    RAGEngine.ask encode generate make_natural history question index
      all_chunks chunk_metadata =
      some ("Error generating response: " ++ msg, history) := by
  obtain ⟨ctx, hctx⟩ := Option.isSome_iff_exists.mp hret
  obtain ⟨c, d⟩ := ctx
  unfold RAGEngine.ask
  rw [hctx]
  simp only [hgen]

/-- Witness for C9: an always-raising generator on a 1-vector store. -/
theorem ask_generation_error_preserves_history_witness :
    RAGEngine.ask (fun _ => [0]) (fun _ => Except.error "boom") (fun a _ => a)
      [("q0", "a0")] "hi" ⟨[[0]]⟩ ["c0"] [⟨"f0"⟩] =
      some ("Error generating response: " ++ "boom", [("q0", "a0")]) :=
  ask_generation_error_preserves_history (fun _ => [0])
    (fun _ => Except.error "boom") (fun a _ => a) "boom" [("q0", "a0")] "hi"
    ⟨[[0]]⟩ ["c0"] [⟨"f0"⟩] (fun _ => rfl) (by decide)

lemma build_isSome (encode : List String → List (List Int))
    (documents : List String) (metadata : List ChunkMeta) :
    (VectorStore.build encode documents metadata).isSome := by
  unfold VectorStore.build process_documents_for_chunking
  obtain ⟨pr, hpr⟩ := Option.isSome_iff_exists.mp
    (processChunkAux_isSome CHUNK_SIZE CHUNK_OVERLAP
      (by norm_num [CHUNK_SIZE, CHUNK_OVERLAP]) (documents.zip metadata))
  simp [hpr]

lemma build_consistent (encode : List String → List (List Int))
    (hEnc : ∀ l, (encode l).length = l.length)
    (documents : List String) (metadata : List ChunkMeta) :
    ∀ t, VectorStore.build encode documents metadata = some t →
      consistentTriple t := by
  intro t ht
  unfold VectorStore.build process_documents_for_chunking at ht
  rw [Option.map_eq_some'] at ht
  obtain ⟨pr, hpr, hfp⟩ := ht
  have halign : pr.1.length = pr.2.length :=
    processChunkAux_align CHUNK_SIZE CHUNK_OVERLAP _ pr.1 pr.2 (by rw [hpr])
  rw [← hfp]
  exact ⟨halign, by simp [FaissIndex.ntotal, hEnc pr.1]⟩

/-- C1: the triple returned by `get_or_build` is mutually consistent
(`len(chunks) = len(chunk_metadata) = index.ntotal`) on both the
freshly-built path and the load-from-disk path, given that the embedder
returns one vector per input chunk and that whatever persisted store is on
disk was itself written consistently (as every store this code writes is);
the disk state left behind satisfies the same invariant. -/
theorem get_or_build_consistent (encode : List String → List (List Int))
    (saveOk : Bool) (currentHash : Option String)
    (disk : Option PersistedStore) (documents : List String)
    (metadata : List ChunkMeta)
    (hEnc : ∀ l, (encode l).length = l.length)
    (hDisk : ∀ s, disk = some s →
      consistentTriple (s.index, s.chunks, s.chunk_metadata)) :
    ∃ r d c, VectorStore.get_or_build encode saveOk currentHash disk documents
        metadata = some (r, d, c) ∧ consistentTriple r ∧
      ∀ s, d = some s →
        consistentTriple (s.index, s.chunks, s.chunk_metadata) := by
  unfold VectorStore.get_or_build
  by_cases hex : VectorStore.existsCheck disk currentHash = true
  · rw [if_pos hex]
    cases disk with
    | none => simp [VectorStore.existsCheck] at hex
    | some s =>
      refine ⟨(s.index, s.chunks, s.chunk_metadata), some s, 0, ?_, ?_, ?_⟩
      · simp [VectorStore.load]
      · exact hDisk s rfl
      · intro s' hs'
        obtain rfl := Option.some.inj hs'
        exact hDisk _ rfl
  · rw [if_neg hex]
    obtain ⟨t, ht⟩ := Option.isSome_iff_exists.mp
      (build_isSome encode documents metadata)
    have hcons := build_consistent encode hEnc documents metadata t ht
    unfold VectorStore.buildAndSave
    rw [ht]
    cases currentHash with
    | none => exact ⟨t, disk, 1, by simp, hcons, hDisk⟩
    | some hsh =>
      cases saveOk with
      | false => exact ⟨t, disk, 1, by simp, hcons, hDisk⟩
      | true =>
        refine ⟨t, some ⟨t.1, t.2.1, t.2.2, hsh⟩, 1, by simp, hcons, ?_⟩
        intro s hs
        obtain rfl := Option.some.inj hs
        exact hcons

/-- Witness for C1: a fresh build over one 2-word document. -/
theorem get_or_build_consistent_witness :
    ∃ r d c, VectorStore.get_or_build (fun l => l.map fun _ => [0]) true
        (some "h") none ["a b"] [⟨"f"⟩] = some (r, d, c) ∧
      consistentTriple r ∧
      ∀ s, d = some s →
        consistentTriple (s.index, s.chunks, s.chunk_metadata) :=
  get_or_build_consistent (fun l => l.map fun _ => [0]) true (some "h") none
    ["a b"] [⟨"f"⟩] (fun l => by simp) (fun s hs => nomatch hs)

/-- C2: starting from a state where the persisted store is absent or
stale, a first `get_or_build` call embeds once and saves; a second call on
the unchanged corpus (same fingerprint, all four artifacts now present)
embeds zero times and returns the loaded persisted triple, leaving the
disk untouched — one embedding across both calls; a third call after the
corpus fingerprint changed embeds once more and overwrites the persisted
fingerprint with the new one. -/
theorem cache_correctness (encode : List String → List (List Int))
    (hsh hsh2 : String) (disk0 : Option PersistedStore)
    (documents documents2 : List String)
    (metadata metadata2 : List ChunkMeta)
    (hfresh : VectorStore.existsCheck disk0 (some hsh) = false)
    (hne : hsh2 ≠ hsh) :
    ∃ r1 d1, VectorStore.get_or_build encode true (some hsh) disk0 documents
        metadata = some (r1, d1, 1) ∧
      VectorStore.get_or_build encode true (some hsh) d1 documents metadata =
        some (r1, d1, 0) ∧
      ∃ r3 s3, VectorStore.get_or_build encode true (some hsh2) d1 documents2
          metadata2 = some (r3, some s3, 1) ∧ s3.filesHash = hsh2 := by
  obtain ⟨t, ht⟩ := Option.isSome_iff_exists.mp
    (build_isSome encode documents metadata)
  obtain ⟨t2, ht2⟩ := Option.isSome_iff_exists.mp
    (build_isSome encode documents2 metadata2)
  refine ⟨t, some ⟨t.1, t.2.1, t.2.2, hsh⟩, ?_, ?_, ?_⟩
  · unfold VectorStore.get_or_build
    rw [if_neg (by simp [hfresh])]
    unfold VectorStore.buildAndSave
    rw [ht]
    rfl
  · unfold VectorStore.get_or_build
    rw [if_pos (by simp [VectorStore.existsCheck])]
    simp [VectorStore.load]
  · refine ⟨t2, ⟨t2.1, t2.2.1, t2.2.2, hsh2⟩, ?_, rfl⟩
    unfold VectorStore.get_or_build
    rw [if_neg (by simp [VectorStore.existsCheck, Ne.symm hne])]
    unfold VectorStore.buildAndSave
    rw [ht2]
    rfl

/-- Witness for C2: concrete corpus, empty initial disk, two distinct
fingerprints. -/
theorem cache_correctness_witness :
    ∃ r1 d1, VectorStore.get_or_build (fun l => l.map fun _ => [0]) true
        (some "x") none ["a b"] [⟨"f"⟩] = some (r1, d1, 1) ∧
      VectorStore.get_or_build (fun l => l.map fun _ => [0]) true (some "x")
          d1 ["a b"] [⟨"f"⟩] = some (r1, d1, 0) ∧
      ∃ r3 s3, VectorStore.get_or_build (fun l => l.map fun _ => [0]) true
          (some "y") d1 ["a b"] [⟨"f"⟩] = some (r3, some s3, 1) ∧
        s3.filesHash = "y" :=
  cache_correctness (fun l => l.map fun _ => [0]) "x" "y" none ["a b"] ["a b"]
    [⟨"f"⟩] [⟨"f"⟩] (by decide) (by decide)
